import Mathlib

/-!
Verification of the viral-reel-generator pipeline (`src/app.py`) against its
natural-language specification.  The Python program is shallowly embedded:
pure fragments become Lean functions over `Nat`/`Int`/`ℚ`, the retry loop and
the per-segment loop become explicit recursions, exceptions become
`Except`/`Option`, and the external libraries (Gemini client, `json`,
MoviePy) are modelled at the granularity the program observes them
(attempt outcomes, a JSON value parser, clip duration/geometry records).
-/

namespace ViralReel

/-! ## Segment Selector: retry loop (`app.py` lines 108-124)

`model.generate_content` is external; one call either succeeds, raises a
rate-limit-class exception (`"429" in str(e) or "Resource exhausted" in
str(e)`), or raises some other exception.  `outcome n` is the result of the
(n+1)-th call the program would make. -/

inductive GenOutcome
  | success
  | rateLimit
  | otherError
  deriving DecidableEq, Repr

inductive RetryResult
  | ok (attempt : Nat)               -- `break` after a successful call
  | rateLimitExceeded                -- `raise Exception("Rate limit exceeded...")`
  | otherError (attempt : Nat)       -- bare `raise` of a non-rate-limit error
  | fellThrough                      -- loop ends without break (unreachable for fuel = max_retries > 0)
  deriving DecidableEq, Repr

/-- `max_retries = 3` in `analyze_videos_with_gemini`. -/
def max_retries : Nat := 3

/-- One execution of `for attempt in range(max_retries): ...` starting at
iteration `attempt` with `fuel` iterations left.  Returns the list of sleep
durations (seconds, from `time.sleep(wait_time)` with
`wait_time = (2 ** attempt) * 2`) in order, paired with how the loop exited. -/
def retryFrom (outcome : Nat → GenOutcome) : Nat → Nat → List Nat × RetryResult
  | _, 0 => ([], RetryResult.fellThrough)
  | attempt, fuel + 1 =>
    match outcome attempt with
    | GenOutcome.success => ([], RetryResult.ok attempt)
    | GenOutcome.rateLimit =>
      if attempt < max_retries - 1 then
        let rest := retryFrom outcome (attempt + 1) fuel
        ((2 ^ attempt * 2) :: rest.1, rest.2)
      else
        ([], RetryResult.rateLimitExceeded)
    | GenOutcome.otherError => ([], RetryResult.otherError attempt)

/-- The whole retry block: `for attempt in range(max_retries)`. -/
def runRetry (outcome : Nat → GenOutcome) : List Nat × RetryResult :=
  retryFrom outcome 0 max_retries

/-! ## Video Assembler: geometry normalization (`app.py` lines 200-223)

`target_w, target_h = 1080, 1920`, `target_ratio = 1080/1920 = 0.5625 = 9/16`.
The float comparisons and truncations are exact integer facts here:
`orig_ratio > target_ratio` iff `16*w > 9*h`, `int(orig_h * 0.5625)` is
`9*h / 16` (0.5625 = 9/16 is a dyadic rational, so the product is exact and
`int` truncates the non-negative value), and `int(orig_w / 0.5625)` is
`16*w / 9` (the true quotient is at least 1/9 away from any other integer,
far beyond the rounding error of one correctly-rounded division). -/

structure CropRect where
  x1 : Nat
  y1 : Nat
  width : Nat
  height : Nat
  deriving DecidableEq, Repr

/-- The crop rectangle computed in the "ZERO DISTORTION CROP & RESIZE" block
for a sub-clip of size `w × h` (Python `//` on the non-negative operands is
`Nat` division). -/
def cropGeometry (w h : Nat) : CropRect :=
  if 16 * w > 9 * h then
    -- Landscape - crop width: crop_w = int(orig_h * target_ratio)
    let crop_w := 9 * h / 16
    { x1 := (w - crop_w) / 2, y1 := 0, width := crop_w, height := h }
  else
    -- Portrait or square - crop height: crop_h = int(orig_w / target_ratio)
    let crop_h := 16 * w / 9
    { x1 := 0, y1 := (h - crop_h) / 2, width := w, height := crop_h }

/-- `cropped.resize((target_w, target_h))`: the output dimensions of the
normalization, whatever the crop was. -/
def resizeDims : Nat × Nat := (1080, 1920)

/-- Dimensions of `final_clip_base` for a source sub-clip of size `w × h`:
crop then resize. -/
def normalizedDims (w h : Nat) : Nat × Nat :=
  let _ := cropGeometry w h
  resizeDims

/-! ## Video Assembler: per-segment loop (`app.py` lines 177-280)

An Edit Decision List entry is whatever JSON gave back.  The loop reads
`segment['source_index']`, `segment['start_time']`, `segment['end_time']`;
a missing key (or a non-object entry) raises, and the `try`/`except` that
wraps the whole loop turns that into `return None` for the entire run.
An entry is modelled by its three field lookups, each `none` when the
lookup would raise.  Times are `ℚ` (exact stand-in for the floats compared
and subtracted here); `source_index` is `ℤ` because Python list indexing
accepts negative indices. -/

structure Entry where
  source_index : Option Int
  start_time : Option ℚ
  end_time : Option ℚ
  deriving DecidableEq, Repr

/-- An accepted sub-clip: position (from the front) of the temp file actually
opened, and the `[start, end)` range handed to `subclip` after clamping. -/
structure Clip where
  srcPos : Nat
  start : ℚ
  stop : ℚ
  deriving DecidableEq, Repr

/-- `temp_paths[idx]` for `idx : ℤ`: Python list indexing.  Non-negative
indices count from the front, negative indices from the back, anything out
of `[-len, len)` raises `IndexError`. -/
def pyIndex (n : Nat) (idx : Int) : Option Nat :=
  if 0 ≤ idx then
    if idx < (n : Int) then some idx.toNat else none
  else
    if -(n : Int) ≤ idx then some ((n : Int) + idx).toNat else none

/-- `if end > original_clip.duration: end = original_clip.duration`. -/
def clampEnd (dur stop : ℚ) : ℚ :=
  if stop > dur then dur else stop

/-- What one iteration of `for segment in segments:` does with entry `e`,
given the durations of the temp files (`VideoFileClip(path).duration`).
`Except.error ()` is an uncaught exception inside the loop body (a missing
field, a non-object entry, or an `IndexError` from `temp_paths[idx]`);
`Except.ok none` is a `continue`; `Except.ok (some c)` appends clip `c`. -/
def processEntry (durations : List ℚ) (e : Entry) : Except Unit (Option Clip) :=
  match e.source_index, e.start_time, e.end_time with
  | some idx, some start, some stop =>
    if idx ≥ (durations.length : Int) then Except.ok none
    else
      match pyIndex durations.length idx with
      | none => Except.error ()
      | some pos =>
        let dur := durations.getD pos 0
        let stop := clampEnd dur stop
        if start ≥ stop then Except.ok none
        else if stop - start < 1 / 2 then Except.ok none
        else Except.ok (some { srcPos := pos, start := start, stop := stop })
  | _, _, _ => Except.error ()

/-- The whole `for segment in segments:` loop, accumulating `clips`. -/
def processLoop (durations : List ℚ) : List Entry → Except Unit (List Clip)
  | [] => Except.ok []
  | e :: rest =>
    match processEntry durations e with
    | Except.error () => Except.error ()
    | Except.ok none => processLoop durations rest
    | Except.ok (some c) =>
      match processLoop durations rest with
      | Except.error () => Except.error ()
      | Except.ok cs => Except.ok (c :: cs)

/-- `process_video_segments` up to the production of the accepted clip list:
an exception anywhere in the loop is caught by the surrounding
`except Exception` and yields `None`; `if not clips: return None` turns an
empty list into `None` as well. -/
def process_video_segments (durations : List ℚ) (segments : List Entry) :
    Option (List Clip) :=
  match processLoop durations segments with
  | Except.error () => none
  | Except.ok clips => if clips = [] then none else some clips

/-! ## Video Assembler: background audio (`app.py` lines 251-268)

MoviePy audio clips are modelled by the two attributes this code reads or
sets: duration (seconds) and the accumulated volume factor
(`volumex` multiplies it). -/

structure AClip where
  duration : ℚ
  volume : ℚ
  deriving DecidableEq, Repr

/-- `clip.fx(vfx.loop, duration=d)`: repeats the clip to last exactly `d`. -/
def loopTo (c : AClip) (d : ℚ) : AClip := { c with duration := d }

/-- `clip.subclip(0, t)` for `0 ≤ t ≤ c.duration`: duration becomes `t`. -/
def subclipTo (c : AClip) (t : ℚ) : AClip := { c with duration := t }

/-- `clip.volumex(f)`: scales the volume by `f`. -/
def volumex (c : AClip) (f : ℚ) : AClip := { c with volume := c.volume * f }

/-- The final audio track: either the background music alone, or a
`CompositeAudioClip` of the concatenated video's own audio and the music. -/
inductive FinalAudio
  | sole (music : AClip)
  | composite (videoAudio music : AClip)
  deriving DecidableEq, Repr

/-- Duration of the final audio track; a composite lasts until its longest
component ends. -/
def FinalAudio.duration : FinalAudio → ℚ
  | FinalAudio.sole m => m.duration
  | FinalAudio.composite v m => max v.duration m.duration

/-- The background track inside the final audio. -/
def FinalAudio.music : FinalAudio → AClip
  | FinalAudio.sole m => m
  | FinalAudio.composite _ m => m

/-- The `if audio_file:` block.  `videoDur` is `final_video.duration`;
`videoAudio` is `final_video.audio` (`none` when the concatenated video has
no audio track); `music0` is `AudioFileClip(audio_temp.name)`. -/
def mixBackground (videoDur : ℚ) (videoAudio : Option AClip) (music0 : AClip) :
    FinalAudio :=
  let music := if music0.duration < videoDur then loopTo music0 videoDur
               else subclipTo music0 videoDur
  let music := volumex music (1/5)   -- volumex(0.2)
  match videoAudio with
  | some va => FinalAudio.composite va music
  | none => FinalAudio.sole music

/-! ## Run-level artifact lifecycle (`app.py` lines 50-64, 251-276, 341-385)

Artifacts a run materializes on disk: one `.mp4` temp file per uploaded
video (created in `analyze_videos_with_gemini` before upload), the `.mp3`
temp file for background audio, and the rendered output file
(`output_tfile`).  The run's observable outcomes are abstracted into a
scenario: how many videos were materialized, whether analysis produced a
segment list, whether background audio was supplied, and how
`process_video_segments` ended. -/

inductive Artifact
  | videoTemp (i : Nat)
  | audioTemp
  | outputFile
  deriving DecidableEq, Repr

/-- How `process_video_segments` ends, at the granularity of which artifact
operations it performs: an exception before the audio block (or `not clips`
/ an exception in the loop — no artifact is touched either way), an
exception after the audio temp file was written but before `os.remove`
reached it, or full success (output file written). -/
inductive ProcessOutcome
  | failedBeforeAudio
  | failedDuringMix
  | success
  deriving DecidableEq, Repr

structure Scenario where
  nVideos : Nat
  analysisOk : Bool          -- analyze_videos_with_gemini returned segments (not None)
  hasAudio : Bool            -- audio_file was supplied
  outcome : ProcessOutcome
  deriving DecidableEq, Repr

/-- Files the run creates.  Video temps are always materialized (the loop at
lines 54-62 runs before anything can fail in analysis that we track).  The
audio temp exists only if processing reaches the `if audio_file:` block with
audio supplied; the output file only if `write_videofile` is reached. -/
def runCreated (s : Scenario) : List Artifact :=
  (List.range s.nVideos).map Artifact.videoTemp
    ++ (if s.analysisOk ∧ s.hasAudio ∧ s.outcome ≠ ProcessOutcome.failedBeforeAudio
        then [Artifact.audioTemp] else [])
    ++ (if s.analysisOk ∧ s.outcome = ProcessOutcome.success
        then [Artifact.outputFile] else [])

/-- Files the run deletes.  `os.remove(audio_temp.name)` at line 268 runs
only when the audio block completes; the cleanup loop at lines 382-385
removes exactly the paths in `temp_paths`, swallowing errors. -/
def runDeleted (s : Scenario) : List Artifact :=
  (if s.analysisOk ∧ s.hasAudio ∧ s.outcome = ProcessOutcome.success
   then [Artifact.audioTemp] else [])
    ++ (List.range s.nVideos).map Artifact.videoTemp

/-! ## Upload-count limit (`app.py` lines 329-331)

`st.error` only displays a message; the run is not stopped.  The list the
rest of the run sees is the truncation. -/

def effectiveUploads {α : Type} (uploaded_files : List α) : List α :=
  if uploaded_files.isEmpty = false ∧ uploaded_files.length > 4
  then uploaded_files.take 4 else uploaded_files

/-- The guard at line 344: the run is rejected only when no file was
uploaded (`elif not uploaded_files`). -/
def runProceeds {α : Type} (uploaded_files : List α) : Bool :=
  !(effectiveUploads uploaded_files).isEmpty

/-! ## Segment Selector: JSON parsing with fallbacks (`app.py` lines 133-165)

`json.loads` is modelled by a recursive-descent parser over the JSON value
grammar (objects, arrays, strings with the common escapes, numbers without
exponents, `true`/`false`/`null`; the exotic corners — `\uXXXX` escapes,
exponents — are outside the fragment the responses use and are not needed by
any theorem about the recovery cascade, which is parser-independent).
Numbers become exact rationals. -/

inductive Json
  | null
  | bool (b : Bool)
  | num (q : ℚ)
  | str (s : String)
  | arr (elems : List Json)
  | obj (members : List (String × Json))

/-- The JSON whitespace characters `json.loads` skips between tokens. -/
def isJsonWs (c : Char) : Bool :=
  c = ' ' || c = '\t' || c = '\n' || c = '\r'

/-- The characters Python's regex `\s` matches (ASCII range). -/
def isReWs (c : Char) : Bool :=
  c = ' ' || c = '\t' || c = '\n' || c = '\r' || c = '\x0b' || c = '\x0c'

def skipChars (p : Char → Bool) : List Char → List Char
  | [] => []
  | c :: rest => if p c then skipChars p rest else c :: rest

/-- Longest digit prefix and the remainder. -/
def spanDigits : List Char → List Char × List Char
  | [] => ([], [])
  | c :: rest =>
    if c.isDigit then
      let (ds, r) := spanDigits rest
      (c :: ds, r)
    else ([], c :: rest)

def digitsToNat (ds : List Char) : Nat :=
  ds.foldl (fun a c => a * 10 + (c.toNat - '0'.toNat)) 0

/-- A JSON number: optional minus, integer part, optional fraction part. -/
def parseNumber (cs : List Char) : Option (Json × List Char) :=
  let (neg, cs1) := match cs with
    | '-' :: r => (true, r)
    | _ => (false, cs)
  let (ds, cs2) := spanDigits cs1
  if ds = [] then none
  else
    let intPart : ℚ := (digitsToNat ds : ℚ)
    let signed : ℚ → ℚ := fun q => if neg then -q else q
    match cs2 with
    | '.' :: cs3 =>
      let (fs, cs4) := spanDigits cs3
      if fs = [] then none
      else some (Json.num (signed (intPart + (digitsToNat fs : ℚ) / (10 ^ fs.length : ℚ))), cs4)
    | _ => some (Json.num (signed intPart), cs2)

/-- Body of a JSON string after the opening quote, up to and including the
closing quote.  Handles the single-character escapes. -/
def parseStringBody : List Char → Option (String × List Char)
  | [] => none
  | '"' :: rest => some ("", rest)
  | '\\' :: e :: rest => do
    let c ← match e with
      | '"' => some '"'
      | '\\' => some '\\'
      | '/' => some '/'
      | 'n' => some '\n'
      | 't' => some '\t'
      | 'r' => some '\r'
      | 'b' => some '\x08'
      | 'f' => some '\x0c'
      | _ => none
    let (s, rest2) ← parseStringBody rest
    pure (String.mk (c :: s.toList), rest2)
  | c :: rest => do
    let (s, rest2) ← parseStringBody rest
    pure (String.mk (c :: s.toList), rest2)

mutual

/-- One JSON value, starting at optional whitespace; returns the remainder. -/
def parseVal : Nat → List Char → Option (Json × List Char)
  | 0, _ => none
  | fuel + 1, cs0 =>
    let cs := skipChars isJsonWs cs0
    match cs with
    | '{' :: rest =>
      (match skipChars isJsonWs rest with
       | '}' :: rest2 => some (Json.obj [], rest2)
       | _ => do
         let (kvs, rest2) ← parseMembers fuel rest
         pure (Json.obj kvs, rest2))
    | '[' :: rest =>
      (match skipChars isJsonWs rest with
       | ']' :: rest2 => some (Json.arr [], rest2)
       | _ => do
         let (xs, rest2) ← parseItems fuel rest
         pure (Json.arr xs, rest2))
    | '"' :: rest => do
      let (s, rest2) ← parseStringBody rest
      pure (Json.str s, rest2)
    | _ =>
      if cs.take 4 = ['t', 'r', 'u', 'e'] then some (Json.bool true, cs.drop 4)
      else if cs.take 5 = ['f', 'a', 'l', 's', 'e'] then some (Json.bool false, cs.drop 5)
      else if cs.take 4 = ['n', 'u', 'l', 'l'] then some (Json.null, cs.drop 4)
      else parseNumber cs

/-- Comma-separated array elements up to and including `]`. -/
def parseItems : Nat → List Char → Option (List Json × List Char)
  | 0, _ => none
  | fuel + 1, cs => do
    let (v, rest) ← parseVal fuel cs
    match skipChars isJsonWs rest with
    | ',' :: rest2 => do
      let (vs, rest3) ← parseItems fuel rest2
      pure (v :: vs, rest3)
    | ']' :: rest2 => pure ([v], rest2)
    | _ => none

/-- Comma-separated `"key": value` members up to and including the closing
brace. -/
def parseMembers : Nat → List Char → Option (List (String × Json) × List Char)
  | 0, _ => none
  | fuel + 1, cs =>
    match skipChars isJsonWs cs with
    | '"' :: rest => do
      let (k, rest2) ← parseStringBody rest
      match skipChars isJsonWs rest2 with
      | ':' :: rest3 => do
        let (v, rest4) ← parseVal fuel rest3
        match skipChars isJsonWs rest4 with
        | ',' :: rest5 => do
          let (kvs, rest6) ← parseMembers fuel rest5
          pure ((k, v) :: kvs, rest6)
        | '}' :: rest5 => pure ([(k, v)], rest5)
        | _ => none
      | _ => none
    | _ => none

end

/-- `json.loads`: parse one value and require only whitespace to remain. -/
def jsonLoads (s : String) : Option Json :=
  match parseVal (2 * s.length + 2) s.toList with
  | some (v, rest) => if skipChars isJsonWs rest = [] then some v else none
  | none => none

/-! Models of the two `re` extractions and the comment-stripping `re.sub`.

Recovery 1 uses `re.search` with pattern backtick-backtick-backtick,
optional `json`, `\s*`, group `\[.*?\]`, `\s*`, backtick-backtick-backtick
(DOTALL).  At a given start the match is deterministic: the optional `json`
matches exactly when present (otherwise the following `\s*\[` fails on the
letter `j`), each greedy `\s*` is a maximal munch (the required next
character is never whitespace), and the lazy `.*?` stops at the earliest
closing bracket followed by whitespace and a fence.  `re.search` takes the
leftmost position at which a match exists. -/

/-- Lazy scan for the earliest `]` whose tail is `\s*` then three backticks;
returns the group body accumulated so far (in reverse). -/
def findFenceClose (acc : List Char) : List Char → Option (List Char)
  | [] => none
  | c :: rest =>
    if c = ']' ∧ (skipChars isReWs rest).take 3 = ['`', '`', '`'] then
      some acc.reverse
    else findFenceClose (c :: acc) rest

/-- Attempt the fence pattern anchored at the head of the list. -/
def matchFenceAt (cs : List Char) : Option String :=
  match cs with
  | '`' :: '`' :: '`' :: rest =>
    let rest := if rest.take 4 = ['j', 's', 'o', 'n'] then rest.drop 4 else rest
    (match skipChars isReWs rest with
     | '[' :: body =>
       (match findFenceClose [] body with
        | some mid => some (String.mk ('[' :: mid ++ [']']))
        | none => none)
     | _ => none)
  | _ => none

def searchFence : List Char → Option String
  | [] => none
  | c :: rest =>
    match matchFenceAt (c :: rest) with
    | some g => some g
    | none => searchFence rest

/-- The group captured by the fenced-code-block search, if any. -/
def fencedExtract (s : String) : Option String :=
  searchFence s.toList

/-- The group captured by `re.search` of the greedy DOTALL pattern
`(\[.*\])`: it starts at the first `[` and, `.*` being greedy, ends at the
last `]` of the whole text; a match exists exactly when some `]` follows
the first `[`. -/
def arrayExtract (s : String) : Option String :=
  let cs := s.toList
  match cs.findIdx? (fun c => c = '['), cs.reverse.findIdx? (fun c => c = ']') with
  | some i, some k =>
    let j := cs.length - 1 - k
    if i < j then some (String.mk ((cs.drop i).take (j - i + 1))) else none
  | _, _ => none

/-- Core of the comment strip: when the flag is set we are inside a match of
`//.*` and drop characters up to (not including) the next newline. -/
def stripCommentsCore : Bool → List Char → List Char
  | _, [] => []
  | true, c :: rest =>
    if c = '\n' then c :: stripCommentsCore false rest
    else stripCommentsCore true rest
  | false, '/' :: '/' :: rest => stripCommentsCore true rest
  | false, c :: rest => c :: stripCommentsCore false rest

/-- `re.sub` of `//.*$` with MULTILINE (`.` does not cross newlines): within
each line, the leftmost `//` and the rest of that line are removed. -/
def stripComments (s : String) : String :=
  String.mk (stripCommentsCore false s.toList)

/-- The parse-with-fallbacks block (`app.py` lines 133-165), translated
clause by clause: direct `json.loads`; on failure the fenced-block
extraction and parse; on failure the bracketed-array extraction,
comment-stripping and parse; if everything fails, the failure carries the
raw response text (which the code surfaces in the debugging expander). -/
def parseGeminiJson (text : String) : Except String Json :=
  match jsonLoads text with
  | some v => Except.ok v
  | none =>
    match (fencedExtract text).bind jsonLoads with
    | some v => Except.ok v
    | none =>
      match ((arrayExtract text).map stripComments).bind jsonLoads with
      | some v => Except.ok v
      | none => Except.error text

/-! Specification-side view of the same parser, written from the spec's
words: an ordered list of recovery strategies, each tried in sequence until
one succeeds; if all fail, a `MalformedResponse` failure carrying the raw
text. -/

/-- Try strategies left to right; first success wins. -/
def firstSuccess (strategies : List (String → Option Json)) (text : String) :
    Except String Json :=
  match strategies with
  | [] => Except.error text
  | f :: fs =>
    match f text with
    | some v => Except.ok v
    | none => firstSuccess fs text

/-- The spec's three strategies, in the spec's order: direct parse, fenced
code block, first bracketed array with `//` comments stripped. -/
def specStrategies : List (String → Option Json) :=
  [jsonLoads,
   fun t => (fencedExtract t).bind jsonLoads,
   fun t => ((arrayExtract t).map stripComments).bind jsonLoads]

/-- The recovery cascade exactly as the spec describes it. -/
def specJsonRecovery (text : String) : Except String Json :=
  firstSuccess specStrategies text

/-! ## Theorems -/

/-- The landscape branch of the crop (`orig_ratio > target_ratio`). -/
theorem cropGeometry_landscape (w h : Nat) (hw : 16 * w > 9 * h) :
    cropGeometry w h = ⟨(w - 9 * h / 16) / 2, 0, 9 * h / 16, h⟩ := by
  simp [cropGeometry, hw]

/-- The portrait/square branch of the crop. -/
theorem cropGeometry_portrait (w h : Nat) (hw : ¬ 16 * w > 9 * h) :
    cropGeometry w h = ⟨0, (h - 16 * w / 9) / 2, w, 16 * w / 9⟩ := by
  simp [cropGeometry, hw]

/-- C1, counterexample.  When every generation attempt hits a rate-limit
error, the loop sleeps 2s and then 4s only — never 8s — and the THIRD
consecutive rate-limit error already escalates to the terminal
`Rate limit exceeded` exception; so the claimed backoff sequence 2s, 4s, 8s
with escalation only on a fourth error is false on the code. -/
theorem c1_retry_counterexample :
    runRetry (fun _ => GenOutcome.rateLimit) = ([2, 4], RetryResult.rateLimitExceeded)
    ∧ ([2, 4] : List Nat) ≠ [2, 4, 8] := by
  exact ⟨rfl, by decide⟩

/-- C1, amended.  The retry loop makes up to 3 total attempts; after a
rate-limited attempt 1 it sleeps 2s, after a rate-limited attempt 2 it
sleeps 4s, and a third consecutive rate-limit error escalates to the
terminal rate-limit exception with no further sleep or attempt (a third
attempt that succeeds returns normally after the same two sleeps). -/
theorem c1_retry_amended (outcome : Nat → GenOutcome)
    (h0 : outcome 0 = GenOutcome.rateLimit) (h1 : outcome 1 = GenOutcome.rateLimit) :
    (outcome 2 = GenOutcome.rateLimit →
      runRetry outcome = ([2, 4], RetryResult.rateLimitExceeded))
    ∧ (outcome 2 = GenOutcome.success →
      runRetry outcome = ([2, 4], RetryResult.ok 2)) := by
  constructor <;> intro h2 <;>
    simp [runRetry, retryFrom, h0, h1, h2, max_retries]

/-- C1 witness: two rate-limit errors then one success, instantiating the
amended theorem. -/
theorem c1_retry_amended_witness :
    runRetry (fun n => if n < 2 then GenOutcome.rateLimit else GenOutcome.success)
      = ([2, 4], RetryResult.ok 2) :=
  (c1_retry_amended _ (by decide) (by decide)).2 (by decide)

/-- C3, counterexample.  For a 101×160 sub-clip (landscape relative to
9:16 after the integer crop width 90), the trimmed total is 11 pixels:
the code trims 5 pixels on the left and 6 on the right, so margins are NOT
equal when the trimmed total is odd. -/
theorem c3_crop_counterexample :
    (cropGeometry 101 160).x1 = 5
    ∧ 101 - (cropGeometry 101 160).width - (cropGeometry 101 160).x1 = 6
    ∧ (5 : Nat) ≠ 6 := by decide

/-- C3, amended.  Normalization always outputs exactly 1080×1920, and the
crop offset along the cropped axis is the floor of half the trimmed total:
margins are equal when the trimmed total is even, and the far-side margin
is exactly one pixel larger when it is odd. -/
theorem c3_crop_amended (w h : Nat) :
    normalizedDims w h = (1080, 1920)
    ∧ (16 * w > 9 * h →
        (cropGeometry w h).x1 = (w - (cropGeometry w h).width) / 2
        ∧ w - (cropGeometry w h).width - (cropGeometry w h).x1
            = (cropGeometry w h).x1 + (w - (cropGeometry w h).width) % 2)
    ∧ (16 * w ≤ 9 * h →
        (cropGeometry w h).y1 = (h - (cropGeometry w h).height) / 2
        ∧ h - (cropGeometry w h).height - (cropGeometry w h).y1
            = (cropGeometry w h).y1 + (h - (cropGeometry w h).height) % 2) := by
  refine ⟨rfl, fun hw => ?_, fun hw => ?_⟩
  · rw [cropGeometry_landscape w h hw]
    dsimp only
    refine ⟨rfl, ?_⟩
    omega
  · rw [cropGeometry_portrait w h (by omega)]
    dsimp only
    refine ⟨rfl, ?_⟩
    have h9 : 16 * w / 9 ≤ h := Nat.div_le_of_le_mul (by omega)
    omega

/-- C3 witness: the amended margin law evaluated at the odd-trim source
101×160 and at an even-trim source 100×160. -/
theorem c3_crop_amended_witness :
    (normalizedDims 101 160 = (1080, 1920)
      ∧ 101 - (cropGeometry 101 160).width - (cropGeometry 101 160).x1
          = (cropGeometry 101 160).x1 + (101 - (cropGeometry 101 160).width) % 2)
    ∧ 100 - (cropGeometry 100 160).width - (cropGeometry 100 160).x1
        = (cropGeometry 100 160).x1 + (100 - (cropGeometry 100 160).width) % 2 :=
  ⟨⟨(c3_crop_amended 101 160).1, ((c3_crop_amended 101 160).2.1 (by decide)).2⟩,
   ((c3_crop_amended 100 160).2.1 (by decide)).2⟩

/-- C9.  Normalizing an already-1080×1920 clip selects the full frame
(offsets 0,0; crop size 1080×1920) and resizes to the identical 1080×1920,
leaving the geometry unchanged. -/
theorem c9_normalization_idempotent :
    cropGeometry 1080 1920 = ⟨0, 0, 1080, 1920⟩
    ∧ resizeDims = (1080, 1920)
    ∧ normalizedDims 1080 1920 = (1080, 1920) := by decide

/-- C10.  More than 4 uploads are not rejected: the list is truncated to
its first 4 files in upload order and the run proceeds with those. -/
theorem c10_upload_truncation {α : Type} (files : List α) (h : files.length > 4) :
    effectiveUploads files = files.take 4
    ∧ (effectiveUploads files).length = 4
    ∧ runProceeds files = true := by
  cases files with
  | nil => simp at h
  | cons a l =>
    have he : effectiveUploads (a :: l) = (a :: l).take 4 := by
      unfold effectiveUploads
      rw [if_pos (And.intro (show (a :: l).isEmpty = false from rfl) h)]
    refine ⟨he, ?_, ?_⟩
    · rw [he, List.length_take]
      omega
    · unfold runProceeds
      rw [he]
      rfl

/-- C10 witness: five uploads are cut down to the first four and the run
still proceeds. -/
theorem c10_upload_truncation_witness :
    effectiveUploads [0, 1, 2, 3, 4] = [(0 : Nat), 1, 2, 3]
    ∧ (effectiveUploads [(0 : Nat), 1, 2, 3, 4]).length = 4
    ∧ runProceeds [(0 : Nat), 1, 2, 3, 4] = true :=
  c10_upload_truncation [0, 1, 2, 3, 4] (by decide)

/-- C2.  For an entry whose three fields are present and whose
`source_index` is in range (`0 ≤ idx < len(temp_paths)`), `end_time` is
first clamped to the source's duration, the segment is skipped exactly
when the clamped end is `≤ start_time` or the clamped duration is
`< 0.5` s, a skip continues with the remaining entries, the entry alone
never raises, and otherwise the clip keeps `start_time` and the clamped
end. -/
theorem c2_segment_validation (durations : List ℚ) (idx : ℤ) (start stop : ℚ)
    (rest : List Entry)
    (h0 : 0 ≤ idx) (h1 : idx < (durations.length : ℤ)) :
    (processEntry durations ⟨some idx, some start, some stop⟩ = Except.ok none
      ↔ clampEnd (durations.getD idx.toNat 0) stop ≤ start
        ∨ clampEnd (durations.getD idx.toNat 0) stop - start < 1 / 2)
    ∧ processEntry durations ⟨some idx, some start, some stop⟩ ≠ Except.error ()
    ∧ (processEntry durations ⟨some idx, some start, some stop⟩ = Except.ok none →
        processLoop durations (⟨some idx, some start, some stop⟩ :: rest)
          = processLoop durations rest)
    ∧ (¬ (clampEnd (durations.getD idx.toNat 0) stop ≤ start
          ∨ clampEnd (durations.getD idx.toNat 0) stop - start < 1 / 2) →
        processEntry durations ⟨some idx, some start, some stop⟩
          = Except.ok (some ⟨idx.toNat, start, clampEnd (durations.getD idx.toNat 0) stop⟩)) := by
  have hge : ¬ idx ≥ (durations.length : ℤ) := by omega
  have hpy : pyIndex durations.length idx = some idx.toNat := by
    unfold pyIndex
    rw [if_pos h0, if_pos h1]
  have heval : processEntry durations ⟨some idx, some start, some stop⟩ =
      (if start ≥ clampEnd (durations.getD idx.toNat 0) stop then Except.ok none
       else if clampEnd (durations.getD idx.toNat 0) stop - start < 1 / 2 then Except.ok none
       else Except.ok (some ⟨idx.toNat, start, clampEnd (durations.getD idx.toNat 0) stop⟩)) := by
    unfold processEntry
    dsimp only
    rw [if_neg hge, hpy]
  refine ⟨?_, ?_, ?_, ?_⟩
  · rw [heval]
    split_ifs with hA hB
    · exact iff_of_true rfl (Or.inl hA)
    · exact iff_of_true rfl (Or.inr hB)
    · refine iff_of_false (by simp) ?_
      rintro (hc | hc)
      · exact hA hc
      · exact hB hc
  · rw [heval]
    split_ifs <;> simp
  · intro hskip
    simp only [processLoop]
    rw [hskip]
  · intro hnot
    rw [heval, if_neg (not_or.mp hnot).1, if_neg (not_or.mp hnot).2]

/-- C2 witness: one 10 s source, a segment `0 → 12` is clamped to `0 → 10`
and accepted with the clamped end. -/
theorem c2_segment_validation_witness :
    processEntry [(10 : ℚ)] ⟨some 0, some 0, some 12⟩
      = Except.ok (some ⟨Int.toNat 0, 0, clampEnd (List.getD [(10 : ℚ)] (Int.toNat 0) 0) 12⟩) :=
  (c2_segment_validation [(10 : ℚ)] 0 0 12 [] (by decide) (by decide)).2.2.2
    (by norm_num [clampEnd, List.getD])

/-- C5, counterexample.  A malformed entry (here one missing all three
fields, like a non-object or an object without the keys) does NOT get
skipped: it raises, the surrounding `except` turns the WHOLE run into
`None`, and the valid entry after it is never processed — even though that
valid entry alone would have produced a clip. -/
theorem c5_malformed_counterexample :
    process_video_segments [(10 : ℚ)] [⟨none, none, none⟩, ⟨some 0, some 0, some 5⟩] = none
    ∧ process_video_segments [(10 : ℚ)] [⟨some 0, some 0, some 5⟩]
        = some [⟨0, 0, 5⟩] := by
  constructor
  · rfl
  · norm_num [process_video_segments, processLoop, processEntry, pyIndex, clampEnd, List.getD]

/-- C5, amended.  The Assembler iterates entries in list order and skips an
entry that fails the explicit validation checks (out-of-range index, bad
times), continuing with the rest; but an entry that is malformed — missing
`source_index`, `start_time` or `end_time` — raises, and the surrounding
exception handler aborts the whole run with `None`, so the remaining
entries are not processed. -/
theorem c5_skip_vs_abort (durations : List ℚ) (e : Entry) (rest : List Entry)
    (hmal : e.source_index = none ∨ e.start_time = none ∨ e.end_time = none) :
    processEntry durations e = Except.error ()
    ∧ process_video_segments durations (e :: rest) = none := by
  have herr : processEntry durations e = Except.error () := by
    obtain ⟨i, s, t⟩ := e
    cases i <;> cases s <;> cases t <;> simp_all [processEntry]
  refine ⟨herr, ?_⟩
  unfold process_video_segments
  simp only [processLoop]
  rw [herr]

/-- C5 witness: an entry missing only `source_index` raises and fails the
run. -/
theorem c5_skip_vs_abort_witness :
    processEntry [(10 : ℚ)] ⟨none, some 0, some 5⟩ = Except.error ()
    ∧ process_video_segments [(10 : ℚ)] [⟨none, some 0, some 5⟩] = none :=
  c5_skip_vs_abort [(10 : ℚ)] ⟨none, some 0, some 5⟩ [] (Or.inl rfl)

/-- C6, counterexample.  With two sources of durations 3 s and 10 s, the
segment `source_index = -1, 0 → 5` passes the `idx >= len(temp_paths)`
check (it is negative), and Python list indexing resolves `temp_paths[-1]`
to the LAST upload (front position 1): the segment is not skipped, and it
is assembled from a file other than "position −1 counted from the front". -/
theorem c6_negative_index_counterexample :
    process_video_segments [(3 : ℚ), 10] [⟨some (-1), some 0, some 5⟩]
      = some [⟨1, 0, 5⟩]
    ∧ (some [Clip.mk 1 0 5] : Option (List Clip)) ≠ none := by
  constructor
  · norm_num [process_video_segments, processLoop, processEntry, pyIndex, clampEnd, List.getD]
  · simp

/-- C6, amended.  A segment with `source_index ≥` the number of uploads is
skipped; but a negative `source_index` in `[-n, -1]` is NOT skipped — any
clip it produces comes from the upload at front position `n + source_index`
(Python negative indexing) — and a `source_index < -n` raises `IndexError`,
aborting the whole run. -/
theorem c6_index_handling (durations : List ℚ) (idx : ℤ) (start stop : ℚ) :
    (idx ≥ (durations.length : ℤ) →
      processEntry durations ⟨some idx, some start, some stop⟩ = Except.ok none)
    ∧ (idx < 0 → -(durations.length : ℤ) ≤ idx →
      ∀ c, processEntry durations ⟨some idx, some start, some stop⟩ = Except.ok (some c) →
        c.srcPos = ((durations.length : ℤ) + idx).toNat)
    ∧ (idx < -(durations.length : ℤ) →
      processEntry durations ⟨some idx, some start, some stop⟩ = Except.error ()) := by
  refine ⟨?_, ?_, ?_⟩
  · intro hge
    unfold processEntry
    dsimp only
    rw [if_pos hge]
  · intro hneg hbound c hacc
    have hpy : pyIndex durations.length idx
        = some ((durations.length : ℤ) + idx).toNat := by
      unfold pyIndex
      rw [if_neg (by omega), if_pos hbound]
    unfold processEntry at hacc
    dsimp only at hacc
    rw [if_neg (by omega), hpy] at hacc
    dsimp only at hacc
    split_ifs at hacc
    · exact absurd hacc (by simp)
    · exact absurd hacc (by simp)
    · injection hacc with h1
      injection h1 with h2
      exact h2 ▸ rfl
  · intro hlt
    have hpy : pyIndex durations.length idx = none := by
      unfold pyIndex
      rw [if_neg (by omega), if_neg (by omega)]
    unfold processEntry
    dsimp only
    rw [if_neg (by omega), hpy]

/-- C6 witness: with two uploads, `source_index = -5` is below `-2` and the
entry raises `IndexError`, failing the run. -/
theorem c6_index_handling_witness :
    processEntry [(3 : ℚ), 10] ⟨some (-5), some 0, some 5⟩ = Except.error () :=
  (c6_index_handling [(3 : ℚ), 10] (-5) 0 5).2.2 (by decide)


/-- C7.  Whenever background audio is supplied, the final audio track lasts
exactly as long as the final video (the concatenated video's own audio, when
present, spans the video): music shorter than the video is looped to the
video's duration, music of equal or greater duration is trimmed to it, its
volume is scaled by exactly 0.2, and it is composited with the video's own
audio when that exists, otherwise it becomes the sole track. -/
theorem c7_background_audio (videoDur : ℚ) (videoAudio : Option AClip) (music0 : AClip)
    (hva : ∀ va, videoAudio = some va → va.duration = videoDur) :
    (mixBackground videoDur videoAudio music0).duration = videoDur
    ∧ (mixBackground videoDur videoAudio music0).music.volume = music0.volume * (1 / 5)
    ∧ (music0.duration < videoDur →
        (mixBackground videoDur videoAudio music0).music
          = volumex (loopTo music0 videoDur) (1 / 5))
    ∧ (videoDur ≤ music0.duration →
        (mixBackground videoDur videoAudio music0).music
          = volumex (subclipTo music0 videoDur) (1 / 5))
    ∧ (∀ va, videoAudio = some va → ∃ m,
        mixBackground videoDur videoAudio music0 = FinalAudio.composite va m)
    ∧ (videoAudio = none → ∃ m,
        mixBackground videoDur videoAudio music0 = FinalAudio.sole m) := by
  have hvol : (volumex (if music0.duration < videoDur then loopTo music0 videoDur
      else subclipTo music0 videoDur) (1 / 5)).volume = music0.volume * (1 / 5) := by
    split_ifs <;> rfl
  have hdur : (volumex (if music0.duration < videoDur then loopTo music0 videoDur
      else subclipTo music0 videoDur) (1 / 5)).duration = videoDur := by
    split_ifs <;> rfl
  cases videoAudio with
  | none =>
    have he : mixBackground videoDur none music0
        = FinalAudio.sole (volumex (if music0.duration < videoDur then loopTo music0 videoDur
            else subclipTo music0 videoDur) (1 / 5)) := rfl
    rw [he]
    refine ⟨hdur, hvol, ?_, ?_, ?_, fun _ => ⟨_, rfl⟩⟩
    · intro hd
      show volumex (if music0.duration < videoDur then loopTo music0 videoDur
        else subclipTo music0 videoDur) (1 / 5) = _
      rw [if_pos hd]
    · intro hge
      show volumex (if music0.duration < videoDur then loopTo music0 videoDur
        else subclipTo music0 videoDur) (1 / 5) = _
      rw [if_neg (not_lt.mpr hge)]
    · intro va hv
      exact Option.noConfusion hv
  | some va =>
    have he : mixBackground videoDur (some va) music0
        = FinalAudio.composite va (volumex (if music0.duration < videoDur
            then loopTo music0 videoDur else subclipTo music0 videoDur) (1 / 5)) := rfl
    rw [he]
    refine ⟨?_, hvol, ?_, ?_, ?_, ?_⟩
    · show max va.duration _ = videoDur
      rw [hva va rfl, hdur, max_self]
    · intro hd
      show volumex (if music0.duration < videoDur then loopTo music0 videoDur
        else subclipTo music0 videoDur) (1 / 5) = _
      rw [if_pos hd]
    · intro hge
      show volumex (if music0.duration < videoDur then loopTo music0 videoDur
        else subclipTo music0 videoDur) (1 / 5) = _
      rw [if_neg (not_lt.mpr hge)]
    · intro va2 hv
      injection hv with h2
      exact ⟨_, by rw [h2]⟩
    · intro hv
      exact Option.noConfusion hv

/-- C7 witness: a 10 s video with its own full-length audio track plus a
4 s background song at unit volume: the final track lasts 10 s and the song
is attenuated to volume 1/5. -/
theorem c7_background_audio_witness :
    (mixBackground 10 (some ⟨10, 1⟩) ⟨4, 1⟩).duration = 10
    ∧ (mixBackground 10 (some ⟨10, 1⟩) ⟨4, 1⟩).music.volume = 1 * (1 / 5) := by
  have h := c7_background_audio 10 (some ⟨10, 1⟩) ⟨4, 1⟩
    (by intro va hv; injection hv with h2; rw [← h2])
  exact ⟨h.1, h.2.1⟩

/-- C8, counterexample.  A fully successful run (1 video, no background
audio) creates the rendered output file but never deletes it — the cleanup
loop only removes `temp_paths`, and the output is kept for display and
download — so "every temporary artifact including the final rendered output
file is deleted on every exit path" is false on the code. -/
theorem c8_output_never_deleted_counterexample :
    Artifact.outputFile ∈ runCreated ⟨1, true, false, ProcessOutcome.success⟩
    ∧ Artifact.outputFile ∉ runDeleted ⟨1, true, false, ProcessOutcome.success⟩ := by
  decide

/-- C8, amended.  On every exit path every materialized video temp file is
deleted (deletion errors swallowed); the background-audio temp file is
deleted exactly when the mixing block completes (it leaks if processing
fails between its creation and `os.remove`); the rendered output file is
never deleted. -/
theorem c8_cleanup_amended (s : Scenario) :
    (∀ i, Artifact.videoTemp i ∈ runCreated s → Artifact.videoTemp i ∈ runDeleted s)
    ∧ Artifact.outputFile ∉ runDeleted s
    ∧ (Artifact.audioTemp ∈ runDeleted s ↔
        s.analysisOk ∧ s.hasAudio ∧ s.outcome = ProcessOutcome.success) := by
  obtain ⟨n, aok, haud, out⟩ := s
  refine ⟨?_, ?_, ?_⟩
  · intro i hi
    simp only [runCreated, List.mem_append, List.mem_map, List.mem_range] at hi
    simp only [runDeleted, List.mem_append, List.mem_map, List.mem_range]
    rcases hi with (hi | hi) | hi
    · exact Or.inr hi
    · split_ifs at hi <;> simp_all
    · split_ifs at hi <;> simp_all
  · simp only [runDeleted, List.mem_append, List.mem_map, List.mem_range]
    intro hmem
    rcases hmem with hmem | hmem
    · split_ifs at hmem <;> simp_all
    · obtain ⟨j, _, hj⟩ := hmem
      exact Artifact.noConfusion hj
  · simp only [runDeleted, List.mem_append, List.mem_map, List.mem_range]
    constructor
    · intro hmem
      rcases hmem with hmem | hmem
      · split_ifs at hmem with hcond
        · exact hcond
        · simp_all
      · obtain ⟨j, _, hj⟩ := hmem
        exact Artifact.noConfusion hj
    · intro hcond
      exact Or.inl (by rw [if_pos hcond]; exact List.mem_singleton_self _)

/-- C8 witness: a run that fails during audio mixing still deletes its video
temp files and never deletes the output file (which it never wrote). -/
theorem c8_cleanup_amended_witness :
    Artifact.videoTemp 0 ∈ runDeleted ⟨2, true, true, ProcessOutcome.failedDuringMix⟩
    ∧ Artifact.outputFile ∉ runDeleted ⟨2, true, true, ProcessOutcome.failedDuringMix⟩ :=
  ⟨(c8_cleanup_amended ⟨2, true, true, ProcessOutcome.failedDuringMix⟩).1 0 (by decide),
   (c8_cleanup_amended ⟨2, true, true, ProcessOutcome.failedDuringMix⟩).2.1⟩

/-- C4.  The response parser is exactly the spec's ordered recovery
cascade: direct JSON parse of the whole text, then extraction and parse of
a fenced code block containing a JSON array, then extraction of the
bracketed array substring starting at the first `[` with `//`-style
trailing comments stripped line by line and parse of that; the first
success is returned, and if all three fail the failure carries the raw
response text for diagnosis. -/
theorem c4_parse_recovery_cascade (text : String) :
    parseGeminiJson text = specJsonRecovery text := by
  unfold parseGeminiJson specJsonRecovery specStrategies
  cases h1 : jsonLoads text with
  | some v => simp [firstSuccess, h1]
  | none =>
    cases h2 : (fencedExtract text).bind jsonLoads with
    | some v => simp [firstSuccess, h1, h2]
    | none =>
      cases h3 : ((arrayExtract text).map stripComments).bind jsonLoads with
      | some v => simp [firstSuccess, h1, h2, h3]
      | none => simp [firstSuccess, h1, h2, h3]

/-- A response wrapped in a fenced code block fails direct parsing but is
recovered through the fenced-block strategy. -/
theorem fenced_block_recovery_example :
    jsonLoads "Here is the edit:\n```json\n[1, 2]\n```" = none
    ∧ parseGeminiJson "Here is the edit:\n```json\n[1, 2]\n```"
        = Except.ok (Json.arr [Json.num 1, Json.num 2]) :=
  ⟨rfl, rfl⟩

/-- A response with inline `//` comments inside an otherwise-valid array
fails direct parsing and the fenced strategy, but is recovered through the
comment-stripping strategy. -/
theorem comment_strip_recovery_example :
    jsonLoads "[1, // one\n 2]" = none
    ∧ fencedExtract "[1, // one\n 2]" = none
    ∧ parseGeminiJson "[1, // one\n 2]" = Except.ok (Json.arr [Json.num 1, Json.num 2]) :=
  ⟨rfl, rfl, rfl⟩

/-- A response with no JSON array at all fails every strategy and the
failure surfaces the raw response text. -/
theorem malformed_response_example :
    parseGeminiJson "I cannot analyze these videos."
      = Except.error "I cannot analyze these videos." :=
  rfl

end ViralReel
